import Mathlib

/-!
# Verification of the chart ingestion and statistics engine

A shallow embedding, in Lean 4, of the data processor of the `qr-website`
repository (`data_processor.py` and the movement classification of `app.py`),
together with theorems settling the specification's claims about it.

Modelling conventions:
* The character domain is the ASCII plane: the classifiers of Python's
  `str.strip`, `str.isdigit`, `str.lower`, the regex classes `\w`/`\s`, and
  `unicodedata.category(c)[0] == 'S'` are embedded by their ASCII tables.
* Table cells are either missing (pandas NA), a string, or an integer
  (numeric spreadsheet cells are modelled as integers; IEEE floats are not
  modelled).  Column headers are strings or integers.
* Python's `float(s)` followed by `int(...)` is embedded as a parser of plain
  decimal literals (optional sign, digits, optional fractional part) with
  truncation toward zero; exponent forms, underscores, `inf` and `nan` are
  outside the modelled grammar.
* Python dicts keyed by edition number are embedded as association lists with
  insert-or-overwrite semantics preserving first-insertion order.
-/

/-! ## Character classes (ASCII tables of the Python classifiers) -/

/-- Python whitespace (`str.strip`, regex `\s`), ASCII part:
space, tab, newline, vertical tab, form feed, carriage return. -/
def pySpace (c : Char) : Bool :=
  c = ' ' || c = '\t' || c = '\n' || c = '\x0b' || c = '\x0c' || c = '\r'

/-- ASCII characters of Unicode general category `S` (symbols), removed by the
`unicodedata.category(char)[0] != 'S'` filter of `normalize_song_title`:
`$ + < = > ^ \x60 | ~`. -/
def pySymbolChar (c : Char) : Bool :=
  c = '$' || c = '+' || c = '<' || c = '=' || c = '>' ||
  c = '^' || c = Char.ofNat 96 || c = '|' || c = '~'

/-- Regex `\w` (word character), ASCII part: letters, digits, underscore. -/
def pyWordChar (c : Char) : Bool :=
  c.isAlphanum || c = '_'

/-- The character class kept by the final filter of `normalize_song_title`,
regex `[^\w\s\-\.,:;&\(\)\'\"]+`: word characters, whitespace, and the listed
punctuation (hyphen, period, comma, colon, semicolon, ampersand, parentheses,
apostrophe, double quote). -/
def keptChar (c : Char) : Bool :=
  pyWordChar c || pySpace c ||
  c = '-' || c = '.' || c = ',' || c = ':' || c = ';' || c = '&' ||
  c = '(' || c = ')' || c = Char.ofNat 39 || c = Char.ofNat 34

/-! ## String helpers (`strip`, `lower`, substring containment) -/

/-- `str.lstrip()`: drop leading whitespace. -/
def lstripCs (l : List Char) : List Char := l.dropWhile pySpace

/-- `str.rstrip()`: drop trailing whitespace. -/
def rstripCs (l : List Char) : List Char := (l.reverse.dropWhile pySpace).reverse

/-- `str.strip()`: drop leading and trailing whitespace. -/
def stripCs (l : List Char) : List Char := rstripCs (lstripCs l)

/-- `str.strip()` on strings. -/
def stripS (s : String) : String := String.mk (stripCs s.data)

/-- `str.lower()` (ASCII). -/
def lowerStr (s : String) : String := String.mk (s.data.map Char.toLower)

/-- Python's `needle in hay` substring containment. -/
def containsSub (hay needle : List Char) : Bool :=
  (List.range (hay.length + 1)).any (fun i => needle.isPrefixOf (hay.drop i))

/-! ## Decimal digits, `str(int)` and `int(float(s))` -/

/-- Value of a digit string, most significant digit first. -/
def natVal (l : List Char) : Nat :=
  l.foldl (fun a c => 10 * a + (c.toNat - 48)) 0

/-- Decimal digits of a natural number, fuelled recursion
(`natDigitsFuel (n+1) n` is total for fuel `> n`). -/
def natDigitsFuel : Nat → Nat → List Char
  | 0, _ => []
  | fuel + 1, n =>
    if n < 10 then [Char.ofNat (48 + n)]
    else natDigitsFuel fuel (n / 10) ++ [Char.ofNat (48 + n % 10)]

/-- Decimal digits of a natural number, most significant first. -/
def natDigits (n : Nat) : List Char := natDigitsFuel (n + 1) n

/-- Python `str` of an integer: decimal digits with a leading `-` when
negative. -/
def pyIntReprL (n : Int) : List Char :=
  if n < 0 then '-' :: natDigits n.natAbs else natDigits n.natAbs

/-- Model of Python `int(float(s))` on an already stripped string: an optional
sign, an integer part, and an optional `.`-separated fractional part, at least
one digit overall; the result is truncated toward zero, so it is the signed
integer part.  Exponent forms, underscore separators, `inf` and `nan` are not
in the modelled grammar.  Returns `none` when `s` is not a decimal literal. -/
def parseDec (cs : List Char) : Option Int :=
  match cs with
  | [] => none
  | c :: r =>
    let neg : Bool := c = '-'
    let rest := if c = '-' || c = '+' then r else c :: r
    let ip := rest.takeWhile Char.isDigit
    let rest2 := rest.dropWhile Char.isDigit
    let ok : Bool :=
      match rest2 with
      | [] => !ip.isEmpty
      | d :: fp => d = '.' && fp.all Char.isDigit && (!ip.isEmpty || !fp.isEmpty)
    if ok then some (if neg then -(natVal ip : Int) else (natVal ip : Int))
    else none

/-! ## Data model: headers, cells, songs, datasets -/

/-- A column header of the source table: a string or a number
(numeric headers are modelled as integers). -/
inductive Header where
  | hstr (s : String)
  | hnum (n : Int)
deriving DecidableEq

/-- A cell of the source table: missing (pandas NA), a string, or a number
(numeric cells are modelled as integers). -/
inductive Cell where
  | missing
  | cstr (s : String)
  | cnum (n : Int)
deriving DecidableEq

/-- Python `str(...)` of a header value. -/
def pyStrHeader (h : Header) : String :=
  match h with
  | .hstr s => s
  | .hnum n => String.mk (pyIntReprL n)

/-- Python `str(...)` of a non-missing cell value. -/
def pyStrCell (c : Cell) : String :=
  match c with
  | .missing => ""
  | .cstr s => s
  | .cnum n => String.mk (pyIntReprL n)

/-- A data row: the cell stored under each column header
(`row.get(col)` of a pandas row). -/
def Row := Header → Cell

/-- The source table: column headers and data rows
(the pandas `DataFrame` as far as the processor reads it). -/
structure Df where
  headers : List Header
  rows : List Row

/-- A processed song record: `song_data` of `process_chart_data`.
`positions` is the per-edition dict, in insertion order, storing `none` for
editions where the song did not chart. -/
structure Song where
  title : String
  positions : List (Nat × Option Int)
  total_charts : Nat
deriving DecidableEq

/-- The mutable state of `ChartDataProcessor` that ingestion touches
(`self.songs`, `self.num_charts`). -/
structure ProcState where
  songs : List Song
  num_charts : Nat
deriving DecidableEq

/-- Initial processor state (`ChartDataProcessor.__init__`). -/
def initState : ProcState := { songs := [], num_charts := 0 }

/-- Outcome of `process_chart_data`: success with the processed/skipped row
counts of the diagnostic message, or one of the schema failures. -/
inductive IngestResult where
  | ok (processed skipped : Nat)
  | errNoTitle
  | errNoChart
deriving DecidableEq

/-! ## Dict operations -/

/-- Python dict write `d[k] = v`: overwrite in place, or append a new key. -/
def dictInsert (k : Nat) (v : Option Int) :
    List (Nat × Option Int) → List (Nat × Option Int)
  | [] => [(k, v)]
  | kv :: rest => if kv.1 = k then (k, v) :: rest else kv :: dictInsert k v rest

/-- Python `k in d` / `d.get(k)` combined: `some v` when the key is present
with stored value `v`, `none` when the key is absent. -/
def dictFind (pos : List (Nat × Option Int)) (k : Nat) : Option (Option Int) :=
  (pos.find? (fun kv => kv.1 = k)).map (fun kv => kv.2)

/-- Python `d.get(k)` with default `None`: the stored value, absent when the
key is missing or its stored value is `None`. -/
def dictGet (pos : List (Nat × Option Int)) (k : Nat) : Option Int :=
  (dictFind pos k).join

/-! ## Title Normalizer (`normalize_song_title`) -/

/-- `re.sub(r'\s+', ' ', s)`: collapse every maximal run of whitespace into a
single space (a whitespace character followed by more whitespace is dropped;
the last character of a run becomes the single space). -/
def collapseWs : List Char → List Char
  | [] => []
  | [c] => if pySpace c then [' '] else [c]
  | c :: d :: r =>
    if pySpace c then
      if pySpace d then collapseWs (d :: r)
      else ' ' :: collapseWs (d :: r)
    else c :: collapseWs (d :: r)

/-- `normalize_song_title` on a string input: empty input is returned as is;
otherwise strip, remove symbol-category characters, collapse whitespace runs
to single spaces, remove the characters outside `keptChar`, and strip again
(exactly the pipeline of the source, in source order). -/
def normalize_song_title (s : String) : String :=
  if s = "" then ""
  else
    String.mk
      (stripCs
        ((collapseWs
          ((stripCs s.data).filter (fun c => !pySymbolChar c))).filter keptChar))

/-- `normalize_song_title(row.get(song_column, ""))`: a missing cell
(`pd.isna`) normalizes to the empty string, a numeric cell goes through
`str(...)` first. -/
def normalizeCellTitle (c : Cell) : String :=
  match c with
  | .missing => ""
  | .cstr s => normalize_song_title s
  | .cnum n => normalize_song_title (String.mk (pyIntReprL n))

/-! ## Schema Inferencer (`find_song_column`, `find_chart_columns`) -/

/-- The literal list `possible_song_columns` of `find_song_column`: a stripped
header matching one of these nine spellings is an exact match. -/
def exactNine (h : Header) : Bool :=
  ["Song", "song", "SONG", "Title", "title", "TITLE",
   "Track", "track", "TRACK"].contains (stripS (pyStrHeader h))

/-- The fallback test of `find_song_column`: the stripped, lowercased header
contains `song`, `title` or `track` as a substring. -/
def substrNine (h : Header) : Bool :=
  let t := (lowerStr (stripS (pyStrHeader h))).data
  containsSub t "song".data || containsSub t "title".data ||
  containsSub t "track".data

/-- `find_song_column`: first the exact pass over all columns, then the
substring pass. -/
def find_song_column (hs : List Header) : Option Header :=
  match hs.find? exactNine with
  | some h => some h
  | none => hs.find? substrNine

/-- The per-header test of `find_chart_columns`: `str(col).strip()` made of
digits parses directly (the regex `^(\d+)$` branch of the source accepts
exactly the same strings as `isdigit` in the ASCII model); otherwise an
already numeric header is converted with `int(col)`.  The parsed number
qualifies when it lies in `[1, 99]`. -/
def headerChartNum (h : Header) : Option Nat :=
  let cs := (stripS (pyStrHeader h)).data
  let parsed : Option Int :=
    if cs ≠ [] && cs.all Char.isDigit then some (natVal cs : Int)
    else
      match h with
      | .hnum n => some n
      | .hstr _ => none
  match parsed with
  | some n => if 1 ≤ n && n ≤ 99 then some n.toNat else none
  | none => none

/-- `find_chart_columns`: collect the qualifying `(column, chart_number)`
pairs in column order, then `chart_columns.sort(key=lambda x: x[1])`
(a stable sort by chart number, embedded as insertion sort). -/
def find_chart_columns (hs : List Header) : List (Header × Nat) :=
  List.insertionSort (fun a b => a.2 ≤ b.2)
    (hs.filterMap (fun h => (headerChartNum h).map (fun k => (h, k))))

/-! ## Chart Ingestor (`process_chart_data`) -/

/-- The position-cell handling of `process_chart_data` (lines 171-187):
missing cells and the literals `--`, `` and a single space are absent; a
stripped value of `--` or `` is absent; otherwise `int(float(...))`, with a
parse failure stored as absent and flagged as a warning.  Returns the stored
position and the warning flag. -/
def parsePosition (c : Cell) : Option Int × Bool :=
  if c = .missing || c = .cstr "--" || c = .cstr "" || c = .cstr " " then
    (none, false)
  else
    let v := stripS (pyStrCell c)
    if v = "--" || v = "" then (none, false)
    else
      match parseDec v.data with
      | some n => (some n, false)
      | none => (none, true)

/-- The positions dict of one row: one `d[chart_num] = ...` write per
qualifying chart column, in the sorted column order. -/
def buildPositions (ccs : List (Header × Nat)) (r : Row) :
    List (Nat × Option Int) :=
  ccs.foldl (fun m ck => dictInsert ck.2 (parsePosition (r ck.1)).1 m) []

/-- The `song_data` record built for one row: normalized title, positions
dict, and `total_charts` counted as the non-absent stored values. -/
def mkSong (c : Header) (ccs : List (Header × Nat)) (r : Row) : Song :=
  let pos := buildPositions ccs r
  { title := normalizeCellTitle (r c)
    positions := pos
    total_charts := (pos.filter (fun kv => kv.2.isSome)).length }

/-- One iteration of the row loop of `process_chart_data`: skip rows whose
normalized title is empty, build the song, and append it to `self.songs` only
when it charted at least once; the counters are `processed_songs` and
`skipped_rows`. -/
def ingestStep (c : Header) (ccs : List (Header × Nat))
    (acc : List Song × Nat × Nat) (r : Row) : List Song × Nat × Nat :=
  let t := normalizeCellTitle (r c)
  if t = "" then (acc.1, acc.2.1, acc.2.2 + 1)
  else
    let song := mkSong c ccs r
    if 0 < song.total_charts then (acc.1 ++ [song], acc.2.1 + 1, acc.2.2)
    else (acc.1, acc.2.1, acc.2.2 + 1)

/-- `process_chart_data` on an already loaded table: infer the song column
(failing with the no-title-column error), infer the chart columns (failing
with the no-chart-columns error), set `self.num_charts`, and run the row
loop.  The row loop appends to the `self.songs` already in the state, exactly
as the source method does. -/
def process_chart_data (st : ProcState) (df : Df) : ProcState × IngestResult :=
  match find_song_column df.headers with
  | none => (st, .errNoTitle)
  | some c =>
    let ccs := find_chart_columns df.headers
    if ccs.isEmpty then (st, .errNoChart)
    else
      let res := df.rows.foldl (ingestStep c ccs) (st.songs, 0, 0)
      ({ songs := res.1, num_charts := ccs.length }, .ok res.2.1 res.2.2)

/-! ## Statistics & Ranking Engine (`get_chart_data`, movement) -/

/-- One row of `get_chart_data`'s result. -/
structure Entry where
  position : Int
  prev_position : Option Int
  title : String
  total_charts : Nat
deriving DecidableEq

/-- The backward scan `for prev_num in range(chart_number - 1, 0, -1)`: the
first `prev_num` from `m` down to `1` that is a key of the positions dict
contributes its stored value (which may itself be `None`); `none` when no
earlier key exists. -/
def prevSearch (pos : List (Nat × Option Int)) : Nat → Option Int
  | 0 => none
  | m + 1 =>
    match dictFind pos (m + 1) with
    | some v => v
    | none => prevSearch pos m

/-- `get_chart_data(chart_number)`: every song with a non-absent position in
the requested edition, paired with the backward-scan previous position, then
sorted ascending by current position (Python's stable `sort`, embedded as
insertion sort). -/
def get_chart_data (n : Nat) (songs : List Song) : List Entry :=
  List.insertionSort (fun a b => a.position ≤ b.position)
    (songs.filterMap (fun s =>
      match dictGet s.positions n with
      | some p =>
        some { position := p
               prev_position := if 1 < n then prevSearch s.positions (n - 1) else none
               title := s.title
               total_charts := s.total_charts }
      | none => none))

/-- The five movement labels of the presentation layer. -/
inductive Movement where
  | fresh
  | reentry
  | riser
  | faller
  | same
deriving DecidableEq

/-- The movement classification of `get_chart` (`app.py`, lines 285-307) for
one chart entry: when the previous position is absent, the first song record
whose title equals the entry's title is scanned over editions
`range(1, chart_number)` for any non-absent position (guarded by
`chart_number > 1`), giving `reentry` or `new` (modelled as `fresh`);
otherwise the delta `previous - current` gives `riser` / `faller` / `same`. -/
def movementFor (songs : List Song) (n : Nat) (e : Entry) : Movement :=
  match e.prev_position with
  | none =>
    let isReentry : Bool :=
      if 1 < n then
        match songs.find? (fun s => s.title == e.title) with
        | some s => (List.range' 1 (n - 1)).any
            (fun k => (dictGet s.positions k).isSome)
        | none => false
      else false
    if isReentry then .reentry else .fresh
  | some prev =>
    let mv := prev - e.position
    if 1 ≤ mv then .riser
    else if mv ≤ -1 then .faller
    else .same

/-! ## Spec-side definitions

These definitions follow the words of the specification's claims (not the
source); they exist to be compared against the source-derived definitions
above. -/

/-- C4's words for the title-column selection: the first column whose header
is, case-insensitively, exactly `song`, `title` or `track`; otherwise the
first column whose lowercased header contains one of those words as a
substring. -/
def claimSongColumn (hs : List Header) : Option Header :=
  match hs.find? (fun h =>
      ["song", "title", "track"].contains (lowerStr (pyStrHeader h))) with
  | some h => some h
  | none => hs.find? (fun h =>
      let t := (lowerStr (pyStrHeader h)).data
      containsSub t "song".data || containsSub t "title".data ||
      containsSub t "track".data)

/-- C5's words for chart-column qualification: an already numeric header with
value in `[1, 99]`, or a string header that is a pure digit sequence (no
non-digit content) whose value lies in `[1, 99]`. -/
def claimChartNum (h : Header) : Option Nat :=
  match h with
  | .hnum n => if 1 ≤ n && n ≤ 99 then some n.toNat else none
  | .hstr s =>
    if s.data ≠ [] && s.data.all Char.isDigit then
      let v := natVal s.data
      if 1 ≤ v && v ≤ 99 then some v else none
    else none

/-- The amended chart-column qualification (C5): as `claimChartNum`, but a
string header is first stripped of leading and trailing whitespace. -/
def amendedChartNum (h : Header) : Option Nat :=
  match h with
  | .hnum n => if 1 ≤ n && n ≤ 99 then some n.toNat else none
  | .hstr s =>
    let t := (stripS s).data
    if t ≠ [] && t.all Char.isDigit then
      let v := natVal t
      if 1 ≤ v && v ≤ 99 then some v else none
    else none

/-- C7's words for position-cell handling: a missing cell, or one equal after
trimming to the empty string or `--`, is absent without warning; a trimmed
cell parsing as a decimal number is stored truncated; anything else is absent
with a warning. -/
def specParseCell (c : Cell) : Option Int × Bool :=
  match c with
  | .missing => (none, false)
  | _ =>
    let t := stripS (pyStrCell c)
    if t = "" || t = "--" then (none, false)
    else
      match parseDec t.data with
      | some n => (some n, false)
      | none => (none, true)

/-- C6's words for the movement classification of a chart entry generated by
song record `s`: with the previous position absent, `reentry` when `s` has a
non-absent position in some edition `k` with `1 ≤ k < n`, else `new`
(`fresh`); with the previous position present, the sign of
`previous - current` gives `riser` / `faller` / `same`. -/
def specMovement (s : Song) (n : Nat) (cur : Int) (prev : Option Int) :
    Movement :=
  match prev with
  | none =>
    if (List.range n).any
        (fun k => decide (1 ≤ k) && (dictGet s.positions k).isSome) then
      .reentry
    else .fresh
  | some p =>
    if 1 ≤ p - cur then .riser
    else if p - cur ≤ -1 then .faller
    else .same

/-- The amended previous-position rule (C1): the greatest edition number
`k < n` (with `k ≥ 1`) present as a key of the positions dict, regardless of
whether its stored value is absent. -/
def specNearestKey (pos : List (Nat × Option Int)) (n : Nat) : Option Nat :=
  ((List.range n).filter (fun k => decide (1 ≤ k) && (dictFind pos k).isSome)).getLast?

/-! ## Concrete input tables used by counterexamples and witnesses -/

/-- A table with one song charting in editions 1 and 3 but not 2:
header row `[Song, 1, 2, 3]`, data row `("A", 5, "--", 4)`. -/
def dfC1 : Df :=
  { headers := [.hstr "Song", .hnum 1, .hnum 2, .hnum 3]
    rows := [fun h =>
      if h = .hstr "Song" then .cstr "A"
      else if h = .hnum 1 then .cnum 5
      else if h = .hnum 2 then .cstr "--"
      else .cnum 4] }

/-- A minimal valid table: header row `[Song, 1]`, data row `("A", 1)`. -/
def dfC2 : Df :=
  { headers := [.hstr "Song", .hnum 1]
    rows := [fun h => if h = .hstr "Song" then .cstr "A" else .cnum 1] }

/-- A table whose two rows have titles differing only in case:
header row `[Song, 1]`, data rows `("Hello", 3)` and `("HELLO", 5)`. -/
def dfC9 : Df :=
  { headers := [.hstr "Song", .hnum 1]
    rows := [fun h => if h = .hstr "Song" then .cstr "Hello" else .cnum 3,
             fun h => if h = .hstr "Song" then .cstr "HELLO" else .cnum 5] }

/-- A table with a title column but no numbered chart columns. -/
def dfNoCharts : Df := { headers := [.hstr "Song", .hstr "extra"], rows := [] }

/-- Two rows clash (for the amended C9) when both have non-empty normalized
titles that are equal case-insensitively. -/
def rowClash (c : Header) (r1 r2 : Row) : Bool :=
  !(normalizeCellTitle (r1 c) == "") && !(normalizeCellTitle (r2 c) == "") &&
  (lowerStr (normalizeCellTitle (r1 c)) == lowerStr (normalizeCellTitle (r2 c)))

instance : IsTotal (Header × Nat) (fun a b => a.2 ≤ b.2) :=
  ⟨fun a b => Nat.le_total a.2 b.2⟩

instance : IsTrans (Header × Nat) (fun a b => a.2 ≤ b.2) :=
  ⟨fun _ _ _ h1 h2 => Nat.le_trans h1 h2⟩

/-! ## C1: the previous-position lookup -/

/-- C1, counterexample.  Ingesting `dfC1` yields one song with positions
`{1: 5, 2: None, 3: 4}`.  The claim says the entry of `chartView(3)` pairs
position 4 with previous position 5 (edition 1 being the most recent earlier
edition with a non-absent entry) and that the previous position is absent only
when no earlier non-absent entry exists; the code instead stops its backward
scan at edition 2, whose key is present with stored value `None`, and reports
the previous position as absent. -/
theorem C1_counterexample :
    (get_chart_data 3 (process_chart_data initState dfC1).1.songs).map
        Entry.prev_position = [none]
    ∧ (process_chart_data initState dfC1).1.songs.map
        (fun s => dictGet s.positions 1) = [some 5]
    ∧ (process_chart_data initState dfC1).1.songs.map
        (fun s => dictGet s.positions 2) = [none] := by
  decide

/-! ## C2: re-running ingestion -/

/-- C2 (code bug).  Running `process_chart_data` twice on the same unchanged
table does not replace the dataset: the method resets `self.num_charts` but
never clears `self.songs`, so the second run appends a second copy of every
record.  On `dfC2`, the first run produces one song and the second run leaves
two copies of it. -/
theorem C2_run_twice_accumulates :
    (process_chart_data (process_chart_data initState dfC2).1 dfC2).1.songs
      = (process_chart_data initState dfC2).1.songs
        ++ (process_chart_data initState dfC2).1.songs
    ∧ (process_chart_data (process_chart_data initState dfC2).1 dfC2).1.songs
      ≠ (process_chart_data initState dfC2).1.songs
    ∧ ((process_chart_data initState dfC2).1.songs.length = 1
        ∧ (process_chart_data (process_chart_data initState dfC2).1 dfC2).1.num_charts
          = (process_chart_data initState dfC2).1.num_charts) := by
  decide

/-! ## C3: idempotence of the title normalizer -/

/-- C3 (code bug).  The normalizer removes disallowed characters *after*
collapsing whitespace, so `"a @ b"` normalizes to `"a  b"` — a string with a
double space, contradicting both the claimed idempotence and the function's
own stated purpose of removing extra spaces — and a second application gives
the different string `"a b"`. -/
theorem C3_not_idempotent :
    normalize_song_title "a @ b" = "a  b"
    ∧ normalize_song_title (normalize_song_title "a @ b") = "a b"
    ∧ normalize_song_title (normalize_song_title "a @ b")
      ≠ normalize_song_title "a @ b" := by
  decide

/-! ## C4: title-column selection, counterexample -/

/-- C4, counterexample.  On the header row `[sOng, Song]` the claim's rule
(first case-insensitively exact match) selects `sOng`, but the code's exact
pass compares against the nine literal spellings
`Song/song/SONG/Title/title/TITLE/Track/track/TRACK`, misses `sOng`, and
selects `Song`. -/
theorem C4_counterexample :
    claimSongColumn [.hstr "sOng", .hstr "Song"] = some (.hstr "sOng")
    ∧ find_song_column [.hstr "sOng", .hstr "Song"] = some (.hstr "Song")
    ∧ (Header.hstr "sOng" : Header) ≠ .hstr "Song" := by
  decide

/-! ## C5: chart-column qualification, counterexample -/

/-- C5, counterexample.  The header `" 7 "` contains non-digit content
(whitespace), so the claim says it does not qualify; the code strips the
header before the digit test and accepts it as edition 7. -/
theorem C5_counterexample :
    find_chart_columns [.hstr " 7 "] = [(.hstr " 7 ", 7)]
    ∧ claimChartNum (.hstr " 7 ") = none := by
  decide

/-! ## C9: case-insensitive uniqueness of titles, counterexample -/

/-- C9, counterexample.  Ingestion never checks titles for uniqueness: the
two rows of `dfC9`, titled `Hello` and `HELLO`, both enter the dataset, and
their titles are equal case-insensitively. -/
theorem C9_counterexample :
    (process_chart_data initState dfC9).1.songs.map Song.title
      = ["Hello", "HELLO"]
    ∧ lowerStr "Hello" = lowerStr "HELLO" := by
  decide

/-! ## Helper lemmas: digits, stripping, decimal round trips -/

theorem digitChar_toNat {k : Nat} (hk : k < 10) :
    (Char.ofNat (48 + k)).toNat = 48 + k := by
  interval_cases k <;> decide

theorem digitChar_isDigit {k : Nat} (hk : k < 10) :
    (Char.ofNat (48 + k)).isDigit = true := by
  interval_cases k <;> decide

theorem pySpace_of_isDigit {c : Char} (h : c.isDigit = true) :
    pySpace c = false := by
  cases hp : pySpace c
  · rfl
  · exfalso
    simp only [pySpace, Bool.or_eq_true, decide_eq_true_eq] at hp
    rcases hp with ((((h1 | h1) | h1) | h1) | h1) | h1 <;> subst h1 <;>
      exact absurd h (by decide)

theorem isDigit_decide_ne {c d : Char} (h : c.isDigit = true)
    (hd : d.isDigit = false) : decide (c = d) = false := by
  by_cases hc : c = d
  · subst hc
    rw [h] at hd
    cases hd
  · simp [hc]

theorem natDigitsFuel_spec (fuel : Nat) : ∀ n, n < fuel →
    natDigitsFuel fuel n ≠ [] ∧
    (∀ c ∈ natDigitsFuel fuel n, c.isDigit = true) ∧
    ∀ a : Nat,
      List.foldl (fun a c => 10 * a + (c.toNat - 48)) a (natDigitsFuel fuel n)
        = a * 10 ^ (natDigitsFuel fuel n).length + n := by
  induction fuel with
  | zero => intro n h; exact absurd h (Nat.not_lt_zero n)
  | succ f ih =>
    intro n hn
    by_cases h10 : n < 10
    · rw [natDigitsFuel, if_pos h10]
      refine ⟨by simp, ?_, ?_⟩
      · intro c hc
        rw [List.mem_singleton] at hc
        subst hc
        exact digitChar_isDigit h10
      · intro a
        simp only [List.foldl, List.length_singleton, pow_one]
        rw [digitChar_toNat h10]
        omega
    · have hdiv : n / 10 < f := by
        have h1 : n / 10 < n := Nat.div_lt_self (by omega) (by omega)
        omega
      obtain ⟨hne, hdig, hfold⟩ := ih (n / 10) hdiv
      rw [natDigitsFuel, if_neg h10]
      refine ⟨by simp, ?_, ?_⟩
      · intro c hc
        rcases List.mem_append.mp hc with h | h
        · exact hdig c h
        · rw [List.mem_singleton] at h
          subst h
          exact digitChar_isDigit (Nat.mod_lt n (by omega))
      · intro a
        rw [List.foldl_append, List.length_append]
        simp only [List.foldl, List.length_singleton]
        rw [hfold a, digitChar_toNat (Nat.mod_lt n (by omega))]
        have hm := Nat.div_add_mod n 10
        have hcancel : 48 + n % 10 - 48 = n % 10 := by omega
        rw [hcancel, pow_succ]
        ring_nf
        omega

theorem natDigits_ne_nil (n : Nat) : natDigits n ≠ [] :=
  (natDigitsFuel_spec (n + 1) n (Nat.lt_succ_self n)).1

theorem natDigits_digits (n : Nat) : ∀ c ∈ natDigits n, c.isDigit = true :=
  (natDigitsFuel_spec (n + 1) n (Nat.lt_succ_self n)).2.1

theorem natVal_natDigits (n : Nat) : natVal (natDigits n) = n := by
  have h := (natDigitsFuel_spec (n + 1) n (Nat.lt_succ_self n)).2.2 0
  unfold natVal natDigits
  rw [h]
  omega

theorem dropWhile_of_head_neg {α : Type} {p : α → Bool} {l : List α}
    (h : ∀ c ∈ l, p c = false) : l.dropWhile p = l := by
  cases l with
  | nil => rfl
  | cons a t =>
    exact List.dropWhile_cons_of_neg (by simp [h a (List.mem_cons_self a t)])

theorem takeWhile_of_all {α : Type} {p : α → Bool} : ∀ (l : List α),
    (∀ c ∈ l, p c = true) → l.takeWhile p = l := by
  intro l
  induction l with
  | nil => intro _; rfl
  | cons a t ih =>
    intro h
    rw [List.takeWhile_cons_of_pos (h a (List.mem_cons_self a t))]
    rw [ih (fun c hc => h c (List.mem_cons_of_mem a hc))]

theorem stripCs_of_no_space {l : List Char}
    (h : ∀ c ∈ l, pySpace c = false) : stripCs l = l := by
  unfold stripCs lstripCs rstripCs
  rw [dropWhile_of_head_neg h,
      dropWhile_of_head_neg (fun c hc => h c (List.mem_reverse.mp hc)),
      List.reverse_reverse]

theorem pyIntReprL_no_space (n : Int) : ∀ c ∈ pyIntReprL n, pySpace c = false := by
  intro c hc
  unfold pyIntReprL at hc
  split at hc
  · rcases List.mem_cons.mp hc with h | h
    · subst h; decide
    · exact pySpace_of_isDigit (natDigits_digits _ c h)
  · exact pySpace_of_isDigit (natDigits_digits _ c hc)

theorem pyIntReprL_ne_nil (n : Int) : pyIntReprL n ≠ [] := by
  unfold pyIntReprL
  split
  · simp
  · exact natDigits_ne_nil _

theorem pyIntReprL_ne_dashdash (n : Int) : pyIntReprL n ≠ ['-', '-'] := by
  unfold pyIntReprL
  split
  · intro h
    have h2 : natDigits n.natAbs = ['-'] := by
      injection h with _ h2
    have : ('-' : Char).isDigit = true :=
      natDigits_digits n.natAbs '-' (by rw [h2]; exact List.mem_singleton_self _)
    exact absurd this (by decide)
  · intro h
    have : ('-' : Char).isDigit = true :=
      natDigits_digits n.natAbs '-' (by rw [h]; exact List.mem_cons_self _ _)
    exact absurd this (by decide)

theorem parseDec_digits {l : List Char} (hne : l ≠ [])
    (hdig : ∀ c ∈ l, c.isDigit = true) :
    parseDec l = some ((natVal l : Int)) := by
  cases l with
  | nil => exact absurd rfl hne
  | cons c t =>
    have hc := hdig c (List.mem_cons_self c t)
    rw [parseDec]
    simp only [isDigit_decide_ne hc (by decide : ('-' : Char).isDigit = false),
      isDigit_decide_ne hc (by decide : ('+' : Char).isDigit = false),
      Bool.or_self, Bool.false_eq_true, if_false]
    rw [takeWhile_of_all _ hdig,
        List.dropWhile_eq_nil_iff.mpr (fun x hx => hdig x hx)]
    simp

theorem parseDec_neg_digits {l : List Char} (hne : l ≠ [])
    (hdig : ∀ c ∈ l, c.isDigit = true) :
    parseDec ('-' :: l) = some (-(natVal l : Int)) := by
  cases l with
  | nil => exact absurd rfl hne
  | cons d t =>
    rw [parseDec]
    simp [takeWhile_of_all _ hdig,
      List.dropWhile_eq_nil_iff.mpr (fun x hx => hdig x hx)]

theorem parseDec_pyIntReprL (n : Int) : parseDec (pyIntReprL n) = some n := by
  unfold pyIntReprL
  by_cases hn : n < 0
  · rw [if_pos hn, parseDec_neg_digits (natDigits_ne_nil _) (natDigits_digits _),
        natVal_natDigits]
    have hv : -(n.natAbs : Int) = n := by omega
    rw [hv]
  · rw [if_neg hn, parseDec_digits (natDigits_ne_nil _) (natDigits_digits _),
        natVal_natDigits]
    have hv : (n.natAbs : Int) = n := by omega
    rw [hv]

/-! ## Helper lemmas: dict lookups, first matches, the backward scan -/

theorem dictFind_cons (k1 : Nat) (v1 : Option Int)
    (rest : List (Nat × Option Int)) (e : Nat) :
    dictFind ((k1, v1) :: rest) e = if k1 = e then some v1 else dictFind rest e := by
  by_cases h : k1 = e
  · simp [dictFind, List.find?_cons, h]
  · simp [dictFind, List.find?_cons, h]

theorem dictFind_insert (k : Nat) (v : Option Int) (e : Nat) :
    ∀ m : List (Nat × Option Int),
    dictFind (dictInsert k v m) e = if e = k then some v else dictFind m e := by
  intro m
  induction m with
  | nil =>
    by_cases he : e = k
    · subst he
      simp [dictInsert, dictFind_cons]
    · simp [dictInsert, dictFind_cons, he, Ne.symm he, dictFind]
  | cons kv rest ih =>
    obtain ⟨k1, v1⟩ := kv
    by_cases hk : k1 = k
    · subst hk
      by_cases he : e = k1
      · subst he
        simp [dictInsert, dictFind_cons]
      · simp [dictInsert, dictFind_cons, he, Ne.symm he]
    · by_cases he : e = k
      · subst he
        simp [dictInsert, hk, dictFind_cons, ih, Ne.symm hk]
      · simp [dictInsert, hk, dictFind_cons, ih, he]

theorem buildPositions_foldl_keys (e : Nat) (r : Row) :
    ∀ (ccs : List (Header × Nat)) (m0 : List (Nat × Option Int)),
    (dictFind
      (ccs.foldl (fun m ck => dictInsert ck.2 (parsePosition (r ck.1)).1 m) m0)
      e).isSome
      = (e ∈ ccs.map Prod.snd ∨ (dictFind m0 e).isSome = true) := by
  intro ccs
  induction ccs with
  | nil => intro m0; simp
  | cons ck rest ih =>
    intro m0
    rw [List.foldl_cons, ih, List.map_cons, List.mem_cons]
    rw [dictFind_insert]
    by_cases he : e = ck.2
    · simp [he]
    · simp [he, fun h : ck.2 = e => he h.symm]

theorem dictFind_buildPositions (ccs : List (Header × Nat)) (r : Row) (e : Nat) :
    (dictFind (buildPositions ccs r) e).isSome = (e ∈ ccs.map Prod.snd) := by
  unfold buildPositions
  rw [buildPositions_foldl_keys]
  simp [dictFind]

theorem find?_append_all_neg {α : Type} {p : α → Bool} :
    ∀ (l1 l2 : List α), (∀ x ∈ l1, p x = false) →
    List.find? p (l1 ++ l2) = List.find? p l2 := by
  intro l1
  induction l1 with
  | nil => intro l2 _; rfl
  | cons a t ih =>
    intro l2 h
    have ha : ¬ p a = true := by simp [h a (List.mem_cons_self a t)]
    rw [List.cons_append, List.find?_cons_of_neg (t ++ l2) ha,
        ih l2 (fun x hx => h x (List.mem_cons_of_mem a hx))]

theorem find?_first_title {songs : List Song} {s : Song}
    (hN : (songs.map Song.title).Nodup) (hs : s ∈ songs) :
    songs.find? (fun x => x.title == s.title) = some s := by
  induction songs with
  | nil => exact absurd hs (List.not_mem_nil s)
  | cons a t ih =>
    rw [List.map_cons, List.nodup_cons] at hN
    rcases List.mem_cons.mp hs with h | h
    · subst h
      exact List.find?_cons_of_pos t (by simp)
    · have hne : a.title ≠ s.title := by
        intro hEq
        exact hN.1 (hEq ▸ List.mem_map_of_mem Song.title h)
      have ha : ¬ (a.title == s.title) = true := by simp [hne]
      rw [List.find?_cons_of_neg t ha, ih hN.2 h]

theorem prevSearch_eq_nearest (pos : List (Nat × Option Int)) :
    ∀ m : Nat,
    prevSearch pos m
      = match ((List.range (m + 1)).filter
          (fun k => decide (1 ≤ k) && (dictFind pos k).isSome)).getLast? with
        | none => none
        | some k => dictGet pos k := by
  intro m
  induction m with
  | zero => simp [prevSearch, List.range_succ]
  | succ m ih =>
    rw [List.range_succ, List.filter_append]
    by_cases hk : (dictFind pos (m + 1)).isSome = true
    · rw [prevSearch]
      have hsome : ∃ v, dictFind pos (m + 1) = some v :=
        Option.isSome_iff_exists.mp hk
      obtain ⟨v, hv⟩ := hsome
      rw [hv]
      have hfil : List.filter
          (fun k => decide (1 ≤ k) && (dictFind pos k).isSome) [m + 1]
          = [m + 1] := by
        simp [hv]
      rw [hfil, List.getLast?_concat]
      simp [dictGet, hv]
    · rw [prevSearch]
      have hnone : dictFind pos (m + 1) = none := by
        cases hd : dictFind pos (m + 1)
        · rfl
        · rw [hd] at hk
          simp at hk
      rw [hnone]
      have hfil : List.filter
          (fun k => decide (1 ≤ k) && (dictFind pos k).isSome) [m + 1]
          = [] := by
        simp [hnone]
      rw [hfil, List.append_nil]
      exact ih

theorem ingest_foldl_mem (c : Header) (ccs : List (Header × Nat)) :
    ∀ (rows : List Row) (acc : List Song × Nat × Nat) (s : Song),
    s ∈ (rows.foldl (ingestStep c ccs) acc).1 →
    s ∈ acc.1 ∨ ∃ r ∈ rows, s = mkSong c ccs r
      ∧ normalizeCellTitle (r c) ≠ "" ∧ 0 < s.total_charts := by
  intro rows
  induction rows with
  | nil => intro acc s h; exact Or.inl h
  | cons r rest ih =>
    intro acc s h
    rw [List.foldl_cons] at h
    rcases ih (ingestStep c ccs acc r) s h with h1 | h1
    · simp only [ingestStep] at h1
      split at h1
      · exact Or.inl h1
      · split at h1
        · rcases List.mem_append.mp h1 with h2 | h2
          · exact Or.inl h2
          · rw [List.mem_singleton] at h2
            subst h2
            refine Or.inr ⟨r, List.mem_cons_self r rest, rfl, ?_, ?_⟩
            · assumption
            · assumption
        · exact Or.inl h1
    · obtain ⟨r', hr', h2⟩ := h1
      exact Or.inr ⟨r', List.mem_cons_of_mem r hr', h2⟩

/-! ## C8: the `total_charts` invariant -/

/-- C8, confirmed.  Every song in a dataset produced by a fresh ingestion run
has `total_charts` equal to the number of non-absent stored positions, and
only songs with at least one charted edition are included. -/
theorem C8_total_charts_invariant (df : Df) (s : Song)
    (hs : s ∈ (process_chart_data initState df).1.songs) :
    s.total_charts = (s.positions.filter (fun kv => kv.2.isSome)).length
    ∧ 0 < s.total_charts := by
  unfold process_chart_data at hs
  cases heq : find_song_column df.headers with
  | none => rw [heq] at hs; exact absurd hs (List.not_mem_nil s)
  | some c =>
    rw [heq] at hs
    simp only at hs
    by_cases hcc : (find_chart_columns df.headers).isEmpty
    · rw [if_pos hcc] at hs
      exact absurd hs (List.not_mem_nil s)
    · rw [if_neg hcc] at hs
      simp only [initState] at hs
      rcases ingest_foldl_mem c (find_chart_columns df.headers) df.rows
          ([], 0, 0) s hs with h | ⟨r, _, hmk, _, hpos⟩
      · exact absurd h (List.not_mem_nil s)
      · constructor
        · rw [hmk]; rfl
        · exact hpos

/-- C8, witness: the invariant instantiated on the song ingested from the
concrete table `dfC2`. -/
theorem C8_witness :
    (Song.mk "A" [(1, some 1)] 1).total_charts
      = ((Song.mk "A" [(1, some 1)] 1).positions.filter
          (fun kv => kv.2.isSome)).length
    ∧ 0 < (Song.mk "A" [(1, some 1)] 1).total_charts :=
  C8_total_charts_invariant dfC2 (Song.mk "A" [(1, some 1)] 1) (by decide)

/-! ## C10: the key set of every positions mapping -/

/-- C10, confirmed.  After a fresh ingestion run, an edition number is a key
of a song's positions mapping exactly when it is a discovered chart edition;
in particular all songs share the same key set, and membership of a key says
nothing about whether the song charted (the stored value may be `none`, as in
the witness below). -/
theorem C10_positions_keyset (df : Df) (s : Song)
    (hs : s ∈ (process_chart_data initState df).1.songs) (e : Nat) :
    (dictFind s.positions e).isSome
      = (e ∈ (find_chart_columns df.headers).map Prod.snd) := by
  unfold process_chart_data at hs
  cases heq : find_song_column df.headers with
  | none => rw [heq] at hs; exact absurd hs (List.not_mem_nil s)
  | some c =>
    rw [heq] at hs
    simp only at hs
    by_cases hcc : (find_chart_columns df.headers).isEmpty
    · rw [if_pos hcc] at hs
      exact absurd hs (List.not_mem_nil s)
    · rw [if_neg hcc] at hs
      simp only [initState] at hs
      rcases ingest_foldl_mem c (find_chart_columns df.headers) df.rows
          ([], 0, 0) s hs with h | ⟨r, _, hmk, _, _⟩
      · exact absurd h (List.not_mem_nil s)
      · rw [hmk]
        exact dictFind_buildPositions (find_chart_columns df.headers) r e

/-- C10, witness: instantiated on the table `dfC1`, at edition 2, where the
key is present although the song did not chart (stored value `none`). -/
theorem C10_witness :
    (dictFind (Song.mk "A" [(1, some 5), (2, none), (3, some 4)] 2).positions 2).isSome
      = (2 ∈ (find_chart_columns dfC1.headers).map Prod.snd) :=
  C10_positions_keyset dfC1 (Song.mk "A" [(1, some 5), (2, none), (3, some 4)] 2)
    (by decide) 2

/-- C1, amended and proved.  Every entry of `get_chart_data n` comes from a
song with a non-absent position at `n`, and its previous position is the
stored value of the greatest earlier key of that song's positions mapping
(`specNearestKey`), which may itself be absent; it is `none` exactly when no
earlier key exists or the nearest earlier key stores an absent position. -/
theorem C1_prev_is_nearest_key (songs : List Song) (n : Nat) (e : Entry)
    (he : e ∈ get_chart_data n songs) :
    ∃ s ∈ songs, s.title = e.title ∧ s.total_charts = e.total_charts
      ∧ dictGet s.positions n = some e.position
      ∧ e.prev_position
        = match specNearestKey s.positions n with
          | none => none
          | some k => dictGet s.positions k := by
  unfold get_chart_data at he
  rw [(List.perm_insertionSort _ _).mem_iff, List.mem_filterMap] at he
  obtain ⟨s, hs, hfs⟩ := he
  refine ⟨s, hs, ?_⟩
  cases hp : dictGet s.positions n with
  | none => rw [hp] at hfs; cases hfs
  | some p =>
    rw [hp] at hfs
    simp only [Option.some.injEq] at hfs
    subst hfs
    refine ⟨rfl, rfl, rfl, ?_⟩
    simp only
    by_cases hn : 1 < n
    · rw [if_pos hn]
      obtain ⟨m, hm⟩ : ∃ m, n = m + 1 := ⟨n - 1, by omega⟩
      subst hm
      simp only [Nat.add_sub_cancel]
      rw [prevSearch_eq_nearest]
      rfl
    · rw [if_neg hn]
      unfold specNearestKey
      interval_cases n
      · simp
      · simp [List.range_succ]

/-- C1, witness: the amended statement instantiated at edition 1 of a
one-song dataset, where the previous position is absent because no earlier
key exists. -/
theorem C1_witness :
    ∃ s ∈ [Song.mk "A" [(1, some 5)] 1],
      s.title = (Entry.mk 5 none "A" 1).title
      ∧ s.total_charts = (Entry.mk 5 none "A" 1).total_charts
      ∧ dictGet s.positions 1 = some (Entry.mk 5 none "A" 1).position
      ∧ (Entry.mk 5 none "A" 1).prev_position
        = match specNearestKey s.positions 1 with
          | none => none
          | some k => dictGet s.positions k :=
  C1_prev_is_nearest_key [Song.mk "A" [(1, some 5)] 1] 1 (Entry.mk 5 none "A" 1)
    (by decide)

/-- C4, amended and proved.  `find_song_column` implements two first-match
passes: the first column whose stripped header is one of the nine literal
spellings `Song/song/SONG/Title/title/TITLE/Track/track/TRACK`; failing that,
the first column whose stripped lowercased header contains `song`, `title` or
`track` as a substring; failing both, no title column, and ingestion fails
with the no-title-column error leaving the state unchanged. -/
theorem C4_first_match_characterization :
    (∀ (l1 l2 : List Header) (h : Header),
        (∀ x ∈ l1, exactNine x = false) → exactNine h = true →
        find_song_column (l1 ++ h :: l2) = some h)
    ∧ (∀ (l1 l2 : List Header) (h : Header),
        (∀ x ∈ l1 ++ h :: l2, exactNine x = false) →
        (∀ x ∈ l1, substrNine x = false) → substrNine h = true →
        find_song_column (l1 ++ h :: l2) = some h)
    ∧ (∀ hs : List Header,
        (∀ x ∈ hs, exactNine x = false ∧ substrNine x = false) →
        find_song_column hs = none)
    ∧ (∀ (st : ProcState) (df : Df),
        find_song_column df.headers = none →
        process_chart_data st df = (st, IngestResult.errNoTitle)) := by
  refine ⟨?_, ?_, ?_, ?_⟩
  · intro l1 l2 h h1 h2
    unfold find_song_column
    rw [find?_append_all_neg l1 (h :: l2) h1, List.find?_cons_of_pos _ h2]
  · intro l1 l2 h hall h1 h2
    unfold find_song_column
    rw [List.find?_eq_none.mpr (fun x hx => by simp [hall x hx]),
        find?_append_all_neg l1 (h :: l2) h1, List.find?_cons_of_pos _ h2]
  · intro hs hall
    unfold find_song_column
    rw [List.find?_eq_none.mpr (fun x hx => by simp [(hall x hx).1]),
        List.find?_eq_none.mpr (fun x hx => by simp [(hall x hx).2])]
  · intro st df h
    unfold process_chart_data
    rw [h]

/-- C4, witness: the first-exact-match conjunct instantiated on the header
row `[Artist, Title]`. -/
theorem C4_witness :
    find_song_column [.hstr "Artist", .hstr "Title"] = some (.hstr "Title") :=
  C4_first_match_characterization.1 [.hstr "Artist"] [] (.hstr "Title")
    (by decide) (by decide)

/-- C5, amended and proved.  (i) The per-header test accepts exactly the
already-numeric headers and the digit-after-trimming string headers with
parsed value in `[1, 99]` (`amendedChartNum`); (ii) the qualifying columns
are sorted ascending by parsed edition number; (iii) a pair belongs to
`find_chart_columns` exactly when its column is a table column whose header
qualifies with that edition number; (iv) with zero qualifying columns,
ingestion fails. -/
theorem C5_qualification_sorted_failure :
    (∀ h : Header, headerChartNum h = amendedChartNum h)
    ∧ (∀ hs : List Header,
        List.Pairwise (fun a b => a.2 ≤ b.2) (find_chart_columns hs))
    ∧ (∀ (hs : List Header) (h : Header) (k : Nat),
        (h, k) ∈ find_chart_columns hs ↔ h ∈ hs ∧ headerChartNum h = some k)
    ∧ (∀ (st : ProcState) (df : Df), find_chart_columns df.headers = [] →
        (process_chart_data st df).2 = IngestResult.errNoTitle
        ∨ (process_chart_data st df).2 = IngestResult.errNoChart) := by
  refine ⟨?_, ?_, ?_, ?_⟩
  · intro h
    cases h with
    | hstr s =>
      simp only [headerChartNum, amendedChartNum, pyStrHeader]
      by_cases hc : ((stripS s).data ≠ [] && (stripS s).data.all Char.isDigit)
            = true
      · rw [if_pos hc, if_pos hc]
        have c1 : ((1 : Int) ≤ (natVal (stripS s).data : Int))
            ↔ 1 ≤ natVal (stripS s).data := by exact_mod_cast Iff.rfl
        have c2 : ((natVal (stripS s).data : Int) ≤ 99)
            ↔ natVal (stripS s).data ≤ 99 := by exact_mod_cast Iff.rfl
        by_cases h1 : 1 ≤ natVal (stripS s).data <;>
          by_cases h2 : natVal (stripS s).data ≤ 99 <;>
          simp [h1, h2, c1, c2]
      · rw [if_neg hc, if_neg hc]
    | hnum n =>
      simp only [headerChartNum, amendedChartNum, pyStrHeader]
      have hstrip : stripS (String.mk (pyIntReprL n)) = String.mk (pyIntReprL n) := by
        unfold stripS
        rw [show (String.mk (pyIntReprL n)).data = pyIntReprL n from rfl,
            stripCs_of_no_space (pyIntReprL_no_space n)]
      simp only [hstrip]
      have hsc : (if (decide (pyIntReprL n ≠ []) && (pyIntReprL n).all Char.isDigit)
            = true
          then some ((natVal (pyIntReprL n) : Int)) else some n) = some n := by
        by_cases hn : n < 0
        · have hrep : pyIntReprL n = '-' :: natDigits n.natAbs := by
            unfold pyIntReprL
            rw [if_pos hn]
          rw [hrep]
          simp
        · have hrep : pyIntReprL n = natDigits n.natAbs := by
            unfold pyIntReprL
            rw [if_neg hn]
          rw [hrep]
          have hcond : (decide (natDigits n.natAbs ≠ [])
              && (natDigits n.natAbs).all Char.isDigit) = true := by
            simp [natDigits_ne_nil n.natAbs,
              List.all_eq_true.mpr (natDigits_digits n.natAbs)]
          rw [if_pos hcond, natVal_natDigits]
          have hv : (n.natAbs : Int) = n := by omega
          rw [hv]
      rw [hsc]
  · intro hs
    exact List.sorted_insertionSort _ _
  · intro hs h k
    unfold find_chart_columns
    rw [(List.perm_insertionSort _ _).mem_iff, List.mem_filterMap]
    constructor
    · rintro ⟨a, ha, hfa⟩
      rw [Option.map_eq_some'] at hfa
      obtain ⟨m, hm, heq⟩ := hfa
      injection heq with e1 e2
      subst e1
      subst e2
      exact ⟨ha, hm⟩
    · rintro ⟨hh, hk⟩
      refine ⟨h, hh, ?_⟩
      rw [hk]
      rfl
  · intro st df hch
    unfold process_chart_data
    cases heq : find_song_column df.headers with
    | none => exact Or.inl rfl
    | some c =>
      right
      simp [hch]

/-- C5, witness: the failure conjunct instantiated on a table with a title
column but no numbered columns. -/
theorem C5_witness :
    (process_chart_data initState dfNoCharts).2 = IngestResult.errNoTitle
    ∨ (process_chart_data initState dfNoCharts).2 = IngestResult.errNoChart :=
  C5_qualification_sorted_failure.2.2.2 initState dfNoCharts (by decide)

/-! ## C6: movement classification -/

/-- C6, confirmed.  For every dataset whose song titles are pairwise distinct
(the invariant the specification asserts of ingested datasets), the movement
label computed by `get_chart` for an entry of `chartView(n)` is exactly the
claim's five-way classification of the entry's song: with an absent previous
position, `reentry` when the song has a non-absent position in some edition
`1 ≤ k < n` and `new` otherwise; with a present previous position, the sign
of `previous - current` decides `riser` / `faller` / `same`.  Totality and
mutual exclusion hold by construction: `movementFor` is a function into the
five-label type. -/
theorem C6_movement_classification (songs : List Song) (n : Nat)
    (hN : (songs.map Song.title).Nodup)
    (e : Entry) (he : e ∈ get_chart_data n songs)
    (s : Song) (hs : s ∈ songs) (ht : s.title = e.title) :
    movementFor songs n e = specMovement s n e.position e.prev_position := by
  cases hp : e.prev_position with
  | some p => simp only [movementFor, specMovement, hp]
  | none =>
    simp only [movementFor, specMovement, hp]
    have hfind : songs.find? (fun x => x.title == e.title) = some s := by
      rw [← ht]
      exact find?_first_title hN hs
    rw [hfind]
    suffices hb : (if 1 < n then
          (List.range' 1 (n - 1)).any (fun k => (dictGet s.positions k).isSome)
        else false)
        = (List.range n).any
            (fun k => decide (1 ≤ k) && (dictGet s.positions k).isSome) by
      rw [hb]
    rcases n with _ | n1
    · simp
    · rcases n1 with _ | m
      · simp [List.range_succ]
      · rw [if_pos (by omega)]
        have hr : List.range (m + 2) = 0 :: List.range' 1 (m + 1) := by
          rw [List.range_eq_range', List.range'_succ]
        rw [hr, List.any_cons]
        have h0 : (decide (1 ≤ 0) && (dictGet s.positions 0).isSome) = false := by
          simp
        rw [h0, Bool.false_or]
        have hgen : ∀ l : List Nat, (∀ k ∈ l, 1 ≤ k) →
            l.any (fun k => (dictGet s.positions k).isSome)
              = l.any (fun k => decide (1 ≤ k) && (dictGet s.positions k).isSome) := by
          intro l hl
          induction l with
          | nil => rfl
          | cons a t ih =>
            rw [List.any_cons, List.any_cons,
                ih (fun k hk => hl k (List.mem_cons_of_mem a hk)),
                show decide (1 ≤ a) = true by
                  simp [hl a (List.mem_cons_self a t)]]
            simp
        have hmem : ∀ k ∈ List.range' 1 (m + 1), 1 ≤ k := by
          intro k hk
          rw [List.mem_range'] at hk
          obtain ⟨i, _, hi⟩ := hk
          omega
        rw [show (m + 2) - 1 = m + 1 from rfl, hgen _ hmem]

/-- C6, witness: the classification instantiated on a one-song dataset at
edition 2, where the entry rose from position 2 to position 1. -/
theorem C6_witness :
    movementFor [Song.mk "A" [(1, some 2), (2, some 1)] 2] 2
        (Entry.mk 1 (some 2) "A" 2)
      = specMovement (Song.mk "A" [(1, some 2), (2, some 1)] 2) 2
          (Entry.mk 1 (some 2) "A" 2).position
          (Entry.mk 1 (some 2) "A" 2).prev_position :=
  C6_movement_classification [Song.mk "A" [(1, some 2), (2, some 1)] 2] 2
    (by decide) (Entry.mk 1 (some 2) "A" 2) (by decide)
    (Song.mk "A" [(1, some 2), (2, some 1)] 2) (by decide) (by decide)

/-! ## C7: position-cell handling -/

/-- C7, confirmed.  For every cell, the stored position and warning flag of
ingestion (`parsePosition`, the source's pre-trim checks included) coincide
with the claim's case analysis (`specParseCell`): missing or trimming to the
empty string or `--` gives an absent position without warning; a decimal
value is truncated to an integer rank; anything else is absent with a
non-fatal warning (the parse is total, so ingestion continues). -/
theorem C7_cell_parsing : ∀ c : Cell, parsePosition c = specParseCell c := by
  intro c
  cases c with
  | missing => decide
  | cstr s =>
    by_cases h1 : s = "--"
    · subst h1; decide
    · by_cases h2 : s = ""
      · subst h2; decide
      · by_cases h3 : s = " "
        · subst h3; decide
        · simp only [parsePosition, specParseCell, pyStrCell]
          have hfalse : (decide (Cell.cstr s = Cell.missing)
              || decide (Cell.cstr s = Cell.cstr "--")
              || decide (Cell.cstr s = Cell.cstr "")
              || decide (Cell.cstr s = Cell.cstr " ")) = false := by
            simp [h1, h2, h3]
          rw [hfalse]
          simp only [Bool.false_eq_true, if_false]
          rw [Bool.or_comm (decide (stripS s = "--")) (decide (stripS s = ""))]
  | cnum n =>
    simp only [parsePosition, specParseCell, pyStrCell]
    have hfalse : (decide (Cell.cnum n = Cell.missing)
        || decide (Cell.cnum n = Cell.cstr "--")
        || decide (Cell.cnum n = Cell.cstr "")
        || decide (Cell.cnum n = Cell.cstr " ")) = false := by
      simp
    rw [hfalse]
    simp only [Bool.false_eq_true, if_false]
    have hstrip : stripS (String.mk (pyIntReprL n)) = String.mk (pyIntReprL n) := by
      unfold stripS
      rw [show (String.mk (pyIntReprL n)).data = pyIntReprL n from rfl,
          stripCs_of_no_space (pyIntReprL_no_space n)]
    simp only [hstrip]
    have hne1 : (String.mk (pyIntReprL n) = "--") = False := by
      simp only [eq_iff_iff, iff_false]
      intro h
      rw [String.ext_iff] at h
      exact pyIntReprL_ne_dashdash n h
    have hne2 : (String.mk (pyIntReprL n) = "") = False := by
      simp only [eq_iff_iff, iff_false]
      intro h
      rw [String.ext_iff] at h
      exact pyIntReprL_ne_nil n h
    simp only [hne1, hne2, decide_False, Bool.or_false, Bool.false_or,
      Bool.false_eq_true, if_false]

theorem ingest_foldl_pairwise (c : Header) (ccs : List (Header × Nat)) :
    ∀ (rows : List Row) (acc : List Song × Nat × Nat),
    List.Pairwise (fun s1 s2 => lowerStr s1.title ≠ lowerStr s2.title) acc.1 →
    (∀ s ∈ acc.1, s.title ≠ "" ∧ ∀ r ∈ rows, normalizeCellTitle (r c) ≠ "" →
        lowerStr s.title ≠ lowerStr (normalizeCellTitle (r c))) →
    List.Pairwise (fun r1 r2 => rowClash c r1 r2 = false) rows →
    List.Pairwise (fun s1 s2 => lowerStr s1.title ≠ lowerStr s2.title)
      (rows.foldl (ingestStep c ccs) acc).1 := by
  intro rows
  induction rows with
  | nil =>
    intro acc hP _ _
    exact hP
  | cons r rest ih =>
    intro acc hP hCross hRows
    rw [List.foldl_cons]
    rw [List.pairwise_cons] at hRows
    apply ih (ingestStep c ccs acc r)
    · simp only [ingestStep]
      split
      · exact hP
      · rename_i h_t
        split
        · rw [List.pairwise_append]
          refine ⟨hP, List.pairwise_singleton _ _, ?_⟩
          intro s hsacc x hx
          rw [List.mem_singleton] at hx
          subst hx
          exact (hCross s hsacc).2 r (List.mem_cons_self r rest) h_t
        · exact hP
    · intro s hs1
      simp only [ingestStep] at hs1
      split at hs1
      · exact ⟨(hCross s hs1).1,
          fun r' hr' => (hCross s hs1).2 r' (List.mem_cons_of_mem r hr')⟩
      · rename_i h_t
        split at hs1
        · rcases List.mem_append.mp hs1 with h | h
          · exact ⟨(hCross s h).1,
              fun r' hr' => (hCross s h).2 r' (List.mem_cons_of_mem r hr')⟩
          · rw [List.mem_singleton] at h
            subst h
            refine ⟨h_t, ?_⟩
            intro r' hr' htr' hEq
            have hcl := hRows.1 r' hr'
            apply absurd hcl
            unfold rowClash
            simp only [mkSong] at hEq
            simp [h_t, htr', hEq]
        · exact ⟨(hCross s hs1).1,
            fun r' hr' => (hCross s hs1).2 r' (List.mem_cons_of_mem r hr')⟩
    · exact hRows.2

/-- C9, amended and proved.  Ingestion does not enforce title uniqueness, but
it preserves it: if the input rows are pairwise free of case-insensitive
title clashes (`rowClash`), then the ingested dataset's titles are pairwise
distinct case-insensitively. -/
theorem C9_uniqueness_conditional (df : Df) (c : Header)
    (hc : find_song_column df.headers = some c)
    (hrows : List.Pairwise (fun r1 r2 => rowClash c r1 r2 = false) df.rows) :
    List.Pairwise (fun s1 s2 => lowerStr s1.title ≠ lowerStr s2.title)
      (process_chart_data initState df).1.songs := by
  unfold process_chart_data
  rw [hc]
  simp only
  by_cases hcc : (find_chart_columns df.headers).isEmpty
  · rw [if_pos hcc]
    exact List.Pairwise.nil
  · rw [if_neg hcc]
    simp only [initState]
    exact ingest_foldl_pairwise c (find_chart_columns df.headers) df.rows
      ([], 0, 0) List.Pairwise.nil
      (fun s hs => absurd hs (List.not_mem_nil s)) hrows

/-- C9, witness: the conditional uniqueness instantiated on the clash-free
table `dfC2`. -/
theorem C9_witness :
    List.Pairwise (fun s1 s2 => lowerStr s1.title ≠ lowerStr s2.title)
      (process_chart_data initState dfC2).1.songs :=
  C9_uniqueness_conditional dfC2 (.hstr "Song") (by decide) (by simp [dfC2])
